import Mathlib

/-!
Shallow embedding of `src/bookstore_manager.py` (a menu-driven bookstore
sales-ledger tool backed by SQLite).  The three tables `member`, `book`,
`sale` are lists of records; the SQLite connection and the interactive
prompt loops are modelled by passing the database state explicitly and by
taking one loop iteration's inputs as function arguments.  Each Python
operation (`sales_record`, `show_sales_report`, `update_sales_record`,
`delete_sales_record`, `init_db`) becomes a pure function of the same name.
-/

/-- A row of the `member` table: `mid TEXT PRIMARY KEY, mname, mphone, memail`. -/
structure Member where
  mid : String
  mname : String
  mphone : String
  memail : Option String
deriving DecidableEq

/-- A row of the `book` table: `bid TEXT PRIMARY KEY, btitle, bprice, bstock`. -/
structure Book where
  bid : String
  btitle : String
  bprice : Int
  bstock : Int
deriving DecidableEq

/-- A row of the `sale` table:
`sid INTEGER PRIMARY KEY AUTOINCREMENT, sdate, mid, bid, sqty, sdiscount, stotal`. -/
structure Sale where
  sid : Nat
  sdate : String
  mid : String
  bid : String
  sqty : Int
  sdiscount : Int
  stotal : Int
deriving DecidableEq

/-- The database `bookstore.db` once the three tables exist.  `nextSid` is the
AUTOINCREMENT counter for `sale.sid`: the sid handed to the next insert. -/
structure DB where
  members : List Member
  books : List Book
  sales : List Sale
  nextSid : Nat
deriving DecidableEq

/-- The query `SELECT 1 FROM member WHERE mid = ?` / the row it hits (`mid` is the key). -/
def findMember (db : DB) (m : String) : Option Member :=
  db.members.find? (fun x => x.mid == m)

/-- The query `SELECT bstock, bprice FROM book WHERE bid = ?` / the row it hits. -/
def findBook (db : DB) (b : String) : Option Book :=
  db.books.find? (fun x => x.bid == b)

/-- The date check of `sales_record`:
`len(sales_date) != 10 or sales_date.count("-") != 2` rejects. -/
def validDateFormat (s : String) : Bool :=
  s.length == 10 && s.toList.count '-' == 2

/-- The statement `UPDATE book SET bstock = bstock - ? WHERE bid = ?`. -/
def decStock (books : List Book) (b : String) (q : Int) : List Book :=
  books.map (fun x => if x.bid == b then { x with bstock := x.bstock - q } else x)

/-- The error notices one pass of the `sales_record` input loop can print. -/
inductive CreateErr where
  | invalidDate
  | invalidMember
  | invalidBook
  | invalidQty
  | invalidDiscount
  | insufficientStock (stock : Int)
deriving DecidableEq

/-- Outcome of one pass of the `sales_record` loop. -/
inductive CreateOut where
  | ok (total : Int)
  | err (e : CreateErr)
deriving DecidableEq

/-- One pass of the `while True` loop of `sales_record`: validate the date
format, the member id, the book id, the quantity, the discount and the stock,
in that order, and only then insert the sale row and decrement the stock.
On an error notice the Python loop re-prompts with the database untouched,
so the pass returns the input state together with the error. -/
def sales_record (db : DB) (sdate m b : String) (qty discount : Int) :
    DB × CreateOut :=
  if !validDateFormat sdate then (db, .err .invalidDate)
  else
    match findMember db m with
    | none => (db, .err .invalidMember)
    | some _ =>
      match findBook db b with
      | none => (db, .err .invalidBook)
      | some book =>
        if qty ≤ 0 then (db, .err .invalidQty)
        else if discount < 0 then (db, .err .invalidDiscount)
        else if qty > book.bstock then (db, .err (.insufficientStock book.bstock))
        else
          let total := book.bprice * qty - discount
          let sale : Sale :=
            ⟨db.nextSid, sdate, m, b, qty, discount, total⟩
          ({ db with
              sales := db.sales ++ [sale]
              books := decStock db.books b qty
              nextSid := db.nextSid + 1 },
           .ok total)

/-- A row of the report query of `show_sales_report`:
`SELECT sale.sid, sale.sdate, member.mname, book.btitle, book.bprice,
sale.sqty, sale.sdiscount, sale.stotal`. -/
structure ReportRow where
  sid : Nat
  sdate : String
  mname : String
  btitle : String
  bprice : Int
  sqty : Int
  sdiscount : Int
  stotal : Int
deriving DecidableEq

/-- The `ORDER BY sale.sid` order on report rows. -/
def rowLe (a b : ReportRow) : Prop := a.sid ≤ b.sid

instance : DecidableRel rowLe := fun a b => inferInstanceAs (Decidable (a.sid ≤ b.sid))

instance : IsTotal ReportRow rowLe := ⟨fun a b => Nat.le_total a.sid b.sid⟩

instance : IsTrans ReportRow rowLe := ⟨fun _ _ _ h1 h2 => Nat.le_trans h1 h2⟩

/-- The query of `show_sales_report`:
`FROM sale JOIN member ON sale.mid = member.mid JOIN book ON sale.bid = book.bid
ORDER BY sale.sid`. -/
def listSales (db : DB) : List ReportRow :=
  List.insertionSort rowLe
    (db.sales.filterMap (fun s =>
      match findMember db s.mid, findBook db s.bid with
      | some mem, some bk =>
          some ⟨s.sid, s.sdate, mem.mname, bk.btitle, bk.bprice,
                s.sqty, s.sdiscount, s.stotal⟩
      | _, _ => none))

/-- What `show_sales_report` prints: the notice `目前沒有銷售紀錄。` when the
query returns no rows, else the formatted ledger of the rows. -/
inductive ReportOut where
  | noRecords
  | ledger (rows : List ReportRow)
deriving DecidableEq

/-- The function `show_sales_report`: fetch the joined rows; empty means the notice, else
render each row (rendering is display-only, so the rows stand for it). -/
def show_sales_report (db : DB) : ReportOut :=
  let rows := listSales db
  if rows.isEmpty then .noRecords else .ledger rows

/-- A row of the selection listing of `update_sales_record` and
`delete_sales_record`: `SELECT sale.sid, sale.sdate, member.mname`. -/
structure ListingRow where
  sid : Nat
  sdate : String
  mname : String
deriving DecidableEq

/-- The `ORDER BY sale.sid` order on listing rows. -/
def listingLe (a b : ListingRow) : Prop := a.sid ≤ b.sid

instance : DecidableRel listingLe := fun a b => inferInstanceAs (Decidable (a.sid ≤ b.sid))

instance : IsTotal ListingRow listingLe := ⟨fun a b => Nat.le_total a.sid b.sid⟩

instance : IsTrans ListingRow listingLe := ⟨fun _ _ _ h1 h2 => Nat.le_trans h1 h2⟩

/-- The listing query shared by update and delete:
`FROM sale JOIN member ON sale.mid = member.mid ORDER BY sale.sid`. -/
def salesListing (db : DB) : List ListingRow :=
  List.insertionSort listingLe
    (db.sales.filterMap (fun s =>
      (findMember db s.mid).map (fun mem => ⟨s.sid, s.sdate, mem.mname⟩)))

/-- What the operator types at a selection prompt: the empty string (Enter)
or a parsed integer. -/
inductive Choice where
  | emptyInput
  | num (n : Int)
deriving DecidableEq

/-- The query of `update_sales_record` after a sid is selected:
`SELECT bprice, sqty, sdiscount FROM sale JOIN book ON sale.bid = book.bid
WHERE sale.sid = ?`. -/
def findSaleJoinBook (db : DB) (sid : Nat) : Option (Int × Int × Int) :=
  match db.sales.find? (fun s => s.sid == sid) with
  | none => none
  | some s => (findBook db s.bid).map (fun bk => (bk.bprice, s.sqty, s.sdiscount))

/-- The statement `UPDATE sale SET sdiscount = ?, stotal = ? WHERE sid = ?`. -/
def applyUpdate (sales : List Sale) (sid : Nat) (d t : Int) : List Sale :=
  sales.map (fun s => if s.sid == sid then { s with sdiscount := d, stotal := t } else s)

/-- Outcomes of `update_sales_record`. -/
inductive UpdateOut where
  | noRecords
  | cancelled
  | badSelection
  | bookMissing
  | negativeDiscount
  | updated (sid : Nat) (newTotal : Int)
deriving DecidableEq

/-- The function `update_sales_record`: list the sales (empty table prints the notice and
returns); Enter at the selection prompt cancels; an out-of-range index is
rejected; otherwise the sid of the chosen row is resolved, its book joined for
the current price, the new discount checked non-negative, and the row's
`sdiscount`/`stotal` rewritten with `stotal = bprice * sqty - new_discount`.
A rejected input makes the Python loop re-prompt with the database untouched,
so such a pass returns the input state with the error outcome. -/
def update_sales_record (db : DB) (choice : Choice) (newDiscount : Int) :
    DB × UpdateOut :=
  let listing := salesListing db
  if listing.isEmpty then (db, .noRecords)
  else
    match choice with
    | .emptyInput => (db, .cancelled)
    | .num n =>
      let saleIndex := n - 1
      if saleIndex < 0 then (db, .badSelection)
      else
        match listing.get? saleIndex.toNat with
        | none => (db, .badSelection)
        | some row =>
          match findSaleJoinBook db row.sid with
          | none => (db, .bookMissing)
          | some (bprice, sqty, _) =>
            if newDiscount < 0 then (db, .negativeDiscount)
            else
              let newTotal := bprice * sqty - newDiscount
              ({ db with sales := applyUpdate db.sales row.sid newDiscount newTotal },
               .updated row.sid newTotal)

/-- Outcomes of `delete_sales_record`. -/
inductive DeleteOut where
  | noRecords
  | cancelled
  | badSelection
  | deleted (sid : Nat)
deriving DecidableEq

/-- The function `delete_sales_record`: list the sales (empty table prints the notice and
returns); Enter cancels; an index outside `1..len(sales)` is rejected;
otherwise the chosen row's sid is resolved and
`DELETE FROM sale WHERE sid = ?` runs.  Nothing else is touched: in
particular `book.bstock` is not restored. -/
def delete_sales_record (db : DB) (choice : Choice) : DB × DeleteOut :=
  let listing := salesListing db
  if listing.isEmpty then (db, .noRecords)
  else
    match choice with
    | .emptyInput => (db, .cancelled)
    | .num n =>
      if n < 1 ∨ (listing.length : Int) < n then (db, .badSelection)
      else
        match listing.get? (n - 1).toNat with
        | none => (db, .badSelection)
        | some row =>
          ({ db with sales := db.sales.filter (fun s => s.sid != row.sid) },
           .deleted row.sid)

/-- The storage file before `init_db` may lack tables: each table is `none`
until created.  `saleSeq` is the AUTOINCREMENT state of `sale`, meaningful
once `saleTab` exists: the sid the next insert receives. -/
structure Store where
  memberTab : Option (List Member)
  bookTab : Option (List Book)
  saleTab : Option (List Sale)
  saleSeq : Nat
deriving DecidableEq

/-- A fresh `bookstore.db`: no tables yet. -/
def emptyStore : Store := ⟨none, none, none, 1⟩

/-- The three seed members inserted by `init_db`. -/
def seedMembers : List Member :=
  [⟨"M001", "Alice", "0912-345678", some "alice@example.com"⟩,
   ⟨"M002", "Bob", "0923-456789", some "bob@example.com"⟩,
   ⟨"M003", "Cathy", "0934-567890", some "cathy@example.com"⟩]

/-- The three seed books inserted by `init_db`. -/
def seedBooks : List Book :=
  [⟨"B001", "Python Programming", 600, 50⟩,
   ⟨"B002", "Data Science Basics", 800, 30⟩,
   ⟨"B003", "Machine Learning Guide", 1200, 20⟩]

/-- The four seed sales inserted by `init_db`; AUTOINCREMENT assigns sids
`startSid`, `startSid+1`, ... -/
def seedSales (startSid : Nat) : List Sale :=
  [⟨startSid, "2024-01-15", "M001", "B001", 2, 100, 1100⟩,
   ⟨startSid + 1, "2024-01-16", "M002", "B002", 1, 50, 750⟩,
   ⟨startSid + 2, "2024-01-17", "M001", "B003", 3, 200, 3400⟩,
   ⟨startSid + 3, "2024-01-18", "M003", "B001", 1, 0, 600⟩]

/-- The function `init_db`: if `table_exists` holds for all of `member`, `book` and `sale`
the store is left alone; otherwise `CREATE TABLE IF NOT EXISTS` creates each
missing table (keeping any table already present) and the seed rows are
inserted into the three tables. -/
def init_db (s : Store) : Store :=
  if s.memberTab.isSome && s.bookTab.isSome && s.saleTab.isSome then s
  else
    let mt := s.memberTab.getD []
    let bt := s.bookTab.getD []
    let st := s.saleTab.getD []
    let seq := if s.saleTab.isSome then s.saleSeq else 1
    { memberTab := some (mt ++ seedMembers)
      bookTab := some (bt ++ seedBooks)
      saleTab := some (st ++ seedSales seq)
      saleSeq := seq + 4 }

/-- Every book row has non-negative stock. -/
def stocksNonneg (db : DB) : Prop := ∀ bk ∈ db.books, 0 ≤ bk.bstock

/-- Store-level stock invariant: when the `book` table exists, every row has
non-negative stock. -/
def storeStocksNonneg (s : Store) : Prop :=
  ∀ bt, s.bookTab = some bt → ∀ bk ∈ bt, 0 ≤ bk.bstock

/-- Field `bid` is the PRIMARY KEY of `book`: no two rows share it. -/
def UniqueBids (db : DB) : Prop := (db.books.map Book.bid).Nodup

/-- Field `sid` is the PRIMARY KEY of `sale`: no two rows share it. -/
def UniqueSids (db : DB) : Prop := (db.sales.map Sale.sid).Nodup

/-- A small concrete database used to instantiate the theorems. -/
def demoDB : DB :=
  { members := [⟨"M001", "Alice", "0912-345678", some "alice@example.com"⟩]
    books := [⟨"B001", "Python Programming", 600, 50⟩]
    sales := [⟨1, "2024-01-15", "M001", "B001", 2, 100, 1100⟩]
    nextSid := 2 }

/-- A database whose three tables exist but are empty. -/
def emptyDB : DB := ⟨[], [], [], 1⟩

/-- Modelled from the claim's words (refinement side of C6): a date string of
the fixed `YYYY-MM-DD` length whose exactly two separators sit at the
expected positions, indices 4 and 7. -/
def claimedDateFormat (s : String) : Bool :=
  s.length == 10 && s.toList.count '-' == 2 &&
    s.toList.get? 4 == some '-' && s.toList.get? 7 == some '-'


/-! ### Helper lemmas -/

/-- The map `decStock` rewrites exactly the first row `find?` hits for a bid. -/
theorem find?_decStock (books : List Book) (b : String) (q : Int) :
    (decStock books b q).find? (fun x => x.bid == b)
      = (books.find? (fun x => x.bid == b)).map
          (fun x => { x with bstock := x.bstock - q }) := by
  induction books with
  | nil => rfl
  | cons x xs ih =>
    by_cases hx : (x.bid == b) = true
    · have hx' : x.bid = b := beq_iff_eq.mp hx
      simp [decStock, List.find?_cons, hx']
    · simp only [decStock, List.map_cons] at ih ⊢
      rw [List.find?_cons, List.find?_cons]
      simp only [hx, if_neg]
      simpa [hx] using ih

/-- The map `applyUpdate` rewrites exactly the first row `find?` hits for a sid. -/
theorem find?_applyUpdate (sales : List Sale) (sid : Nat) (d t : Int) :
    (applyUpdate sales sid d t).find? (fun x => x.sid == sid)
      = (sales.find? (fun x => x.sid == sid)).map
          (fun s => { s with sdiscount := d, stotal := t }) := by
  induction sales with
  | nil => rfl
  | cons x xs ih =>
    by_cases hx : (x.sid == sid) = true
    · have hx' : x.sid = sid := beq_iff_eq.mp hx
      simp [applyUpdate, List.find?_cons, hx']
    · simp only [applyUpdate, List.map_cons] at ih ⊢
      rw [List.find?_cons, List.find?_cons]
      simp only [hx, if_neg]
      simpa [hx] using ih

/-- Inversion of a successful pass of `sales_record`. -/
theorem create_inv (db : DB) (sdate m b : String) (qty d : Int) (db' : DB) (t : Int)
    (h : sales_record db sdate m b qty d = (db', .ok t)) :
    validDateFormat sdate = true ∧ (findMember db m).isSome = true ∧
    ∃ book, findBook db b = some book ∧ 0 < qty ∧ 0 ≤ d ∧ qty ≤ book.bstock ∧
      t = book.bprice * qty - d ∧
      db' = { db with
              sales := db.sales ++ [⟨db.nextSid, sdate, m, b, qty, d, t⟩]
              books := decStock db.books b qty
              nextSid := db.nextSid + 1 } := by
  unfold sales_record at h
  split at h
  next hdate => simp at h
  next hdate =>
    split at h
    next => simp at h
    next mem hm =>
      split at h
      next => simp at h
      next book hb =>
        split at h
        next => simp at h
        next hq =>
          split at h
          next => simp at h
          next hd =>
            split at h
            next => simp at h
            next hs =>
              simp only [Prod.mk.injEq, CreateOut.ok.injEq] at h
              obtain ⟨hdb, ht⟩ := h
              refine ⟨by simpa using hdate, by simp [hm], book, hb,
                by omega, by omega, by omega, ht.symm, ?_⟩
              rw [← hdb, ht]

/-- All error passes of `sales_record` return the database unchanged. -/
theorem create_err_frame (db : DB) (sdate m b : String) (qty d : Int)
    (db' : DB) (e : CreateErr)
    (h : sales_record db sdate m b qty d = (db', .err e)) : db' = db := by
  unfold sales_record at h
  split at h
  · simp_all
  split at h
  · simp_all
  split at h
  · simp_all
  split at h
  · simp_all
  split at h
  · simp_all
  split at h
  · simp_all
  · simp_all

/-- Inversion of a successful pass of `update_sales_record`: the rewritten
total is computed from the book row currently joined to the sale. -/
theorem update_inv (db : DB) (c : Choice) (d : Int) (db' : DB) (sid : Nat) (t : Int)
    (h : update_sales_record db c d = (db', .updated sid t)) :
    0 ≤ d ∧
    ∃ s bk, db.sales.find? (fun x => x.sid == sid) = some s ∧
      findBook db s.bid = some bk ∧
      t = bk.bprice * s.sqty - d ∧
      db' = { db with sales := applyUpdate db.sales sid d t } := by
  cases c with
  | emptyInput =>
    simp only [update_sales_record] at h
    split at h <;> simp at h
  | num n =>
    simp only [update_sales_record] at h
    by_cases hemp : (salesListing db).isEmpty = true
    · rw [if_pos hemp] at h; simp at h
    · rw [if_neg hemp] at h
      by_cases hneg : (n - 1 : Int) < 0
      · rw [if_pos hneg] at h; simp at h
      · rw [if_neg hneg] at h
        cases hrow : (salesListing db).get? (n - 1).toNat with
        | none => rw [hrow] at h; simp at h
        | some row =>
          rw [hrow] at h
          dsimp only at h
          cases hj : findSaleJoinBook db row.sid with
          | none => rw [hj] at h; simp at h
          | some pr =>
            rw [hj] at h
            obtain ⟨bprice, sqty, olddisc⟩ := pr
            dsimp only at h
            by_cases hd : d < 0
            · rw [if_pos hd] at h; simp at h
            · rw [if_neg hd] at h
              simp only [Prod.mk.injEq, UpdateOut.updated.injEq] at h
              obtain ⟨hdb, hsid, ht⟩ := h
              subst hsid
              simp only [findSaleJoinBook] at hj
              cases hfind : db.sales.find? (fun x => x.sid == row.sid) with
              | none => rw [hfind] at hj; simp at hj
              | some s =>
                rw [hfind] at hj
                simp only at hj
                obtain ⟨bk, hbk, hbk2⟩ := Option.map_eq_some'.mp hj
                simp only [Prod.mk.injEq] at hbk2
                obtain ⟨hb1, hb2, hb3⟩ := hbk2
                refine ⟨by omega, s, bk, rfl, hbk, ?_, ?_⟩
                · rw [← ht, hb1, hb2]
                · rw [← hdb, ← ht]

/-- Inversion of a successful pass of `delete_sales_record`: the deleted sid
belongs to an existing sale row and only the `sale` table is filtered. -/
theorem delete_inv (db : DB) (c : Choice) (db' : DB) (sid : Nat)
    (h : delete_sales_record db c = (db', .deleted sid)) :
    (∃ s ∈ db.sales, s.sid = sid) ∧
    db' = { db with sales := db.sales.filter (fun s => s.sid != sid) } := by
  cases c with
  | emptyInput =>
    simp only [delete_sales_record] at h
    split at h <;> simp at h
  | num n =>
    simp only [delete_sales_record] at h
    by_cases hemp : (salesListing db).isEmpty = true
    · rw [if_pos hemp] at h; simp at h
    · rw [if_neg hemp] at h
      by_cases hout : n < 1 ∨ ((salesListing db).length : Int) < n
      · rw [if_pos hout] at h; simp at h
      · rw [if_neg hout] at h
        cases hrow : (salesListing db).get? (n - 1).toNat with
        | none => rw [hrow] at h; simp at h
        | some row =>
          rw [hrow] at h
          dsimp only at h
          simp only [Prod.mk.injEq, DeleteOut.deleted.injEq] at h
          obtain ⟨hdb, hsid⟩ := h
          subst hsid
          have hm : row ∈ salesListing db := List.get?_mem hrow
          unfold salesListing at hm
          rw [(List.perm_insertionSort _ _).mem_iff, List.mem_filterMap] at hm
          obtain ⟨s, hs, he⟩ := hm
          obtain ⟨mem, _, hrow2⟩ := Option.map_eq_some'.mp he
          exact ⟨⟨s, hs, by rw [← hrow2]⟩, hdb.symm⟩

/-- The function `update_sales_record` never touches the `member` and `book` tables nor
the AUTOINCREMENT counter. -/
theorem update_other_tables (db : DB) (c : Choice) (d : Int) :
    (update_sales_record db c d).1.books = db.books ∧
    (update_sales_record db c d).1.members = db.members ∧
    (update_sales_record db c d).1.nextSid = db.nextSid := by
  simp only [update_sales_record]
  repeat first
  | exact ⟨rfl, rfl, rfl⟩
  | split

/-- The function `delete_sales_record` never touches the `member` and `book` tables nor
the AUTOINCREMENT counter. -/
theorem delete_other_tables (db : DB) (c : Choice) :
    (delete_sales_record db c).1.books = db.books ∧
    (delete_sales_record db c).1.members = db.members ∧
    (delete_sales_record db c).1.nextSid = db.nextSid := by
  simp only [delete_sales_record]
  repeat first
  | exact ⟨rfl, rfl, rfl⟩
  | split

/-- Dropping the unique row carrying a sid shortens the table by one. -/
theorem filter_ne_sid_length (l : List Sale) (sid : Nat)
    (hnd : (l.map Sale.sid).Nodup) (hex : ∃ s ∈ l, s.sid = sid) :
    (l.filter (fun s => s.sid != sid)).length + 1 = l.length := by
  induction l with
  | nil => simp at hex
  | cons x xs ih =>
    simp only [List.map_cons, List.nodup_cons] at hnd
    obtain ⟨hx, hxs⟩ := hnd
    by_cases hxsid : x.sid = sid
    · have hrest : xs.filter (fun s => s.sid != sid) = xs := by
        apply List.filter_eq_self.mpr
        intro a ha
        have hane : a.sid ≠ sid := by
          intro hc
          exact hx (by rw [hxsid, ← hc]; exact List.mem_map_of_mem Sale.sid ha)
        simpa using hane
      simp [List.filter_cons, hxsid, hrest]
    · obtain ⟨s, hs, hssid⟩ := hex
      rcases List.mem_cons.mp hs with rfl | hs2
      · exact absurd hssid hxsid
      · have hlen := ih hxs ⟨s, hs2, hssid⟩
        have hkeep : (x.sid != sid) = true := by simpa using hxsid
        simp only [List.filter_cons, hkeep, if_pos, List.length_cons]
        omega

/-! ### The claims -/

/-- C1: a `sales_record` pass whose inputs pass every validation (date format
ok, member and book known, `0 < qty ≤ stock`, `0 ≤ discount`) inserts exactly
one new sale row with `stotal = bprice * qty - discount` (no floor: the total
may be negative) and decrements that book's stock by exactly `qty`, touching
nothing else. -/
theorem C1_create_sale_ok (db : DB) (sdate m b : String) (qty discount : Int)
    (book : Book)
    (hdate : validDateFormat sdate = true)
    (hm : (findMember db m).isSome = true)
    (hb : findBook db b = some book)
    (hq : 0 < qty) (hd : 0 ≤ discount) (hs : qty ≤ book.bstock) :
    ∃ db', sales_record db sdate m b qty discount
        = (db', .ok (book.bprice * qty - discount)) ∧
      db'.sales = db.sales ++
        [⟨db.nextSid, sdate, m, b, qty, discount, book.bprice * qty - discount⟩] ∧
      db'.members = db.members ∧
      db'.nextSid = db.nextSid + 1 ∧
      findBook db' b = some { book with bstock := book.bstock - qty } ∧
      (∀ x ∈ db.books, x.bid ≠ b → x ∈ db'.books) := by
  obtain ⟨mem, hmem⟩ := Option.isSome_iff_exists.mp hm
  have h1 : ¬ qty ≤ 0 := by omega
  have h2 : ¬ discount < 0 := by omega
  have h3 : ¬ qty > book.bstock := by omega
  have hrun : sales_record db sdate m b qty discount
      = ({ db with
            sales := db.sales ++
              [⟨db.nextSid, sdate, m, b, qty, discount,
                book.bprice * qty - discount⟩]
            books := decStock db.books b qty
            nextSid := db.nextSid + 1 },
         .ok (book.bprice * qty - discount)) := by
    simp [sales_record, hdate, hmem, hb, h1, h2, h3]
  refine ⟨_, hrun, rfl, rfl, rfl, ?_, ?_⟩
  · show (decStock db.books b qty).find? (fun x => x.bid == b)
      = some { book with bstock := book.bstock - qty }
    rw [find?_decStock]
    unfold findBook at hb
    rw [hb]
    rfl
  · intro x hx hne
    have hbeq : (x.bid == b) = false := beq_eq_false_iff_ne.mpr hne
    show x ∈ decStock db.books b qty
    unfold decStock
    have hmapped := List.mem_map_of_mem
      (fun y : Book => if y.bid == b then { y with bstock := y.bstock - qty } else y) hx
    simpa [hbeq] using hmapped

/-- C1 witness: on the demo database, selling 5 copies of B001 on a valid
date yields total `600 * 5 - 50` and leaves B001 with stock `50 - 5`. -/
theorem C1_create_sale_ok_witness :
    ∃ db', sales_record demoDB "2024-02-01" "M001" "B001" 5 50
        = (db', .ok (600 * 5 - 50)) ∧
      db'.sales = demoDB.sales ++
        [⟨demoDB.nextSid, "2024-02-01", "M001", "B001", 5, 50, 600 * 5 - 50⟩] ∧
      db'.members = demoDB.members ∧
      db'.nextSid = demoDB.nextSid + 1 ∧
      findBook db' "B001" = some ⟨"B001", "Python Programming", 600, 50 - 5⟩ ∧
      (∀ x ∈ demoDB.books, x.bid ≠ "B001" → x ∈ db'.books) :=
  C1_create_sale_ok demoDB "2024-02-01" "M001" "B001" 5 50
    ⟨"B001", "Python Programming", 600, 50⟩
    (by decide) (by decide) (by decide) (by decide) (by decide) (by decide)

/-- C2: every failed validation pass of `sales_record` (bad date format,
unknown member or book, non-positive quantity, negative discount, or quantity
above stock) leaves the database exactly as it was, and each listed condition
produces its error. -/
theorem C2_create_sale_error_frame :
    (∀ db sdate m b qty d db' e,
        sales_record db sdate m b qty d = (db', .err e) → db' = db) ∧
    (∀ db sdate m b qty d, validDateFormat sdate = false →
        sales_record db sdate m b qty d = (db, .err .invalidDate)) ∧
    (∀ db sdate m b qty d, validDateFormat sdate = true →
        findMember db m = none →
        sales_record db sdate m b qty d = (db, .err .invalidMember)) ∧
    (∀ db sdate m b qty d, validDateFormat sdate = true →
        (findMember db m).isSome = true → findBook db b = none →
        sales_record db sdate m b qty d = (db, .err .invalidBook)) ∧
    (∀ db sdate m b qty d book, validDateFormat sdate = true →
        (findMember db m).isSome = true → findBook db b = some book →
        qty ≤ 0 →
        sales_record db sdate m b qty d = (db, .err .invalidQty)) ∧
    (∀ db sdate m b qty d book, validDateFormat sdate = true →
        (findMember db m).isSome = true → findBook db b = some book →
        0 < qty → d < 0 →
        sales_record db sdate m b qty d = (db, .err .invalidDiscount)) ∧
    (∀ db sdate m b qty d book, validDateFormat sdate = true →
        (findMember db m).isSome = true → findBook db b = some book →
        0 < qty → 0 ≤ d → book.bstock < qty →
        sales_record db sdate m b qty d
          = (db, .err (.insufficientStock book.bstock))) := by
  refine ⟨fun db sdate m b qty d db' e h =>
      create_err_frame db sdate m b qty d db' e h, ?_, ?_, ?_, ?_, ?_, ?_⟩
  · intro db sdate m b qty d hdate
    simp [sales_record, hdate]
  · intro db sdate m b qty d hdate hm
    simp [sales_record, hdate, hm]
  · intro db sdate m b qty d hdate hm hb
    obtain ⟨mem, hmem⟩ := Option.isSome_iff_exists.mp hm
    simp [sales_record, hdate, hmem, hb]
  · intro db sdate m b qty d book hdate hm hb hq
    obtain ⟨mem, hmem⟩ := Option.isSome_iff_exists.mp hm
    simp [sales_record, hdate, hmem, hb, hq]
  · intro db sdate m b qty d book hdate hm hb hq hd
    obtain ⟨mem, hmem⟩ := Option.isSome_iff_exists.mp hm
    have h1 : ¬ qty ≤ 0 := by omega
    simp [sales_record, hdate, hmem, hb, h1, hd]
  · intro db sdate m b qty d book hdate hm hb hq hd hs
    obtain ⟨mem, hmem⟩ := Option.isSome_iff_exists.mp hm
    have h1 : ¬ qty ≤ 0 := by omega
    have h2 : ¬ d < 0 := by omega
    simp [sales_record, hdate, hmem, hb, h1, h2, hs]

/-- C2 witness: on the demo database, asking for 999 copies of B001 fails
with `insufficientStock` and the database is unchanged. -/
theorem C2_create_sale_error_frame_witness :
    sales_record demoDB "2024-02-01" "M001" "B001" 999 0
      = (demoDB, .err (.insufficientStock 50)) :=
  C2_create_sale_error_frame.2.2.2.2.2.2 demoDB "2024-02-01" "M001" "B001" 999 0
    ⟨"B001", "Python Programming", 600, 50⟩
    (by decide) (by decide) (by decide) (by decide) (by decide) (by decide)

/-- C6 counterexample: the code's date check accepts `"20-24-0115"`, whose
separators sit at indices 2 and 5, so acceptance is not equivalent to the
claimed positional `YYYY-MM-DD` shape. -/
theorem C6_date_check_counterexample :
    validDateFormat "20-24-0115" = true ∧
    claimedDateFormat "20-24-0115" = false := by
  decide

/-- C6 amended: the date check accepts a string iff its length is 10 and it
contains exactly two separator characters, wherever they sit; the positions
(and calendar validity) are not checked. -/
theorem C6_date_check_amended (s : String) :
    validDateFormat s = true ↔
      s.length = 10 ∧ (s.toList.filter (fun c => c = '-')).length = 2 := by
  unfold validDateFormat
  rw [Bool.and_eq_true, beq_iff_eq, beq_iff_eq, List.count,
    List.countP_eq_length_filter]
  exact Iff.rfl

/-- C6 witness: a string with the separators in calendar positions is
accepted. -/
theorem C6_date_check_amended_witness : validDateFormat "2024-02-01" = true :=
  (C6_date_check_amended "2024-02-01").mpr (by decide)

/-- C3: every successful `update_sales_record` stores
`stotal = current bprice * sqty - new discount`, where `bprice` is read from
the book row as it is *now* (so a price changed after the original sale is
reflected in the recomputed total). -/
theorem C3_update_total_uses_current_price (db : DB) (c : Choice) (d : Int)
    (db' : DB) (sid : Nat) (t : Int)
    (h : update_sales_record db c d = (db', .updated sid t)) :
    ∃ s bk, db.sales.find? (fun x => x.sid == sid) = some s ∧
      findBook db s.bid = some bk ∧
      t = bk.bprice * s.sqty - d ∧
      db'.sales.find? (fun x => x.sid == sid)
        = some { s with sdiscount := d, stotal := t } := by
  obtain ⟨hd, s, bk, hfind, hbk, ht, hdb⟩ := update_inv db c d db' sid t h
  refine ⟨s, bk, hfind, hbk, ht, ?_⟩
  rw [hdb]
  show (applyUpdate db.sales sid d t).find? (fun x => x.sid == sid)
    = some { s with sdiscount := d, stotal := t }
  rw [find?_applyUpdate, hfind]
  rfl

/-- C3 witness: on the demo database (price 600, quantity 2), updating the
discount of sale 1 to 0 stores total `600 * 2 - 0 = 1200`. -/
theorem C3_update_total_uses_current_price_witness :
    ∃ s bk, demoDB.sales.find? (fun x => x.sid == 1) = some s ∧
      findBook demoDB s.bid = some bk ∧
      (1200 : Int) = bk.bprice * s.sqty - 0 ∧
      (DB.mk demoDB.members demoDB.books
          [⟨1, "2024-01-15", "M001", "B001", 2, 0, 1200⟩] 2).sales.find?
        (fun x => x.sid == 1)
        = some { s with sdiscount := 0, stotal := 1200 } :=
  C3_update_total_uses_current_price demoDB (.num 1) 0
    (DB.mk demoDB.members demoDB.books
      [⟨1, "2024-01-15", "M001", "B001", 2, 0, 1200⟩] 2) 1 1200 (by decide)

/-- C4: a successful `delete_sales_record` removes exactly the selected sale
row — the table shrinks by one and every other sale row is kept verbatim —
while the `book` table (stock included) and the `member` table are untouched:
the deleted quantity is not restored to stock. -/
theorem C4_delete_sale_frame (db : DB) (c : Choice) (db' : DB) (sid : Nat)
    (hnd : UniqueSids db)
    (h : delete_sales_record db c = (db', .deleted sid)) :
    db'.sales.length + 1 = db.sales.length ∧
    (∀ s ∈ db.sales, s.sid ≠ sid → s ∈ db'.sales) ∧
    (∀ s, s ∈ db'.sales → s ∈ db.sales) ∧
    db'.books = db.books ∧
    db'.members = db.members := by
  obtain ⟨hex, hdb⟩ := delete_inv db c db' sid h
  subst hdb
  refine ⟨filter_ne_sid_length db.sales sid hnd hex, ?_, ?_, rfl, rfl⟩
  · intro s hs hne
    exact List.mem_filter.mpr ⟨hs, by simpa using hne⟩
  · intro s hs
    exact (List.mem_filter.mp hs).1

/-- C4 witness: deleting the only sale of the demo database empties the
ledger and leaves books and members alone. -/
theorem C4_delete_sale_frame_witness :
    (DB.mk demoDB.members demoDB.books [] 2).sales.length + 1
        = demoDB.sales.length ∧
    (∀ s ∈ demoDB.sales, s.sid ≠ 1 → s ∈ (DB.mk demoDB.members demoDB.books [] 2).sales) ∧
    (∀ s, s ∈ (DB.mk demoDB.members demoDB.books [] 2).sales → s ∈ demoDB.sales) ∧
    (DB.mk demoDB.members demoDB.books [] 2).books = demoDB.books ∧
    (DB.mk demoDB.members demoDB.books [] 2).members = demoDB.members :=
  C4_delete_sale_frame demoDB (.num 1) (DB.mk demoDB.members demoDB.books [] 2) 1
    (by unfold UniqueSids; decide) (by decide)

/-- C5: a successful `update_sales_record` rewrites only the `sdiscount` and
`stotal` fields of the targeted sale row: its date, member, book and quantity
fields, every other sale row, and the whole `book` and `member` tables
(stock included) are unchanged. -/
theorem C5_update_sale_frame (db : DB) (c : Choice) (d : Int)
    (db' : DB) (sid : Nat) (t : Int)
    (h : update_sales_record db c d = (db', .updated sid t)) :
    db'.books = db.books ∧ db'.members = db.members ∧
    db'.nextSid = db.nextSid ∧
    db'.sales.length = db.sales.length ∧
    db'.sales = db.sales.map
      (fun s => if s.sid == sid then { s with sdiscount := d, stotal := t } else s) ∧
    (∀ s ∈ db.sales, s.sid ≠ sid → s ∈ db'.sales) := by
  obtain ⟨hd, s0, bk, hfind, hbk, ht, hdb⟩ := update_inv db c d db' sid t h
  subst hdb
  refine ⟨rfl, rfl, rfl, ?_, rfl, ?_⟩
  · show (applyUpdate db.sales sid d t).length = db.sales.length
    exact List.length_map _ _
  · intro s hs hne
    have hbeq : (s.sid == sid) = false := by simp [hne]
    show s ∈ applyUpdate db.sales sid d t
    unfold applyUpdate
    have hmapped := List.mem_map_of_mem
      (fun x : Sale => if x.sid == sid then { x with sdiscount := d, stotal := t } else x) hs
    simpa [hbeq] using hmapped

/-- C5 witness: the frame conditions at the demo update of sale 1. -/
theorem C5_update_sale_frame_witness :
    (DB.mk demoDB.members demoDB.books
        [⟨1, "2024-01-15", "M001", "B001", 2, 0, 1200⟩] 2).books = demoDB.books ∧
    (DB.mk demoDB.members demoDB.books
        [⟨1, "2024-01-15", "M001", "B001", 2, 0, 1200⟩] 2).members = demoDB.members ∧
    (DB.mk demoDB.members demoDB.books
        [⟨1, "2024-01-15", "M001", "B001", 2, 0, 1200⟩] 2).nextSid = demoDB.nextSid ∧
    (DB.mk demoDB.members demoDB.books
        [⟨1, "2024-01-15", "M001", "B001", 2, 0, 1200⟩] 2).sales.length
      = demoDB.sales.length ∧
    (DB.mk demoDB.members demoDB.books
        [⟨1, "2024-01-15", "M001", "B001", 2, 0, 1200⟩] 2).sales
      = demoDB.sales.map
        (fun s => if s.sid == 1 then { s with sdiscount := 0, stotal := 1200 } else s) ∧
    (∀ s ∈ demoDB.sales, s.sid ≠ 1 →
      s ∈ (DB.mk demoDB.members demoDB.books
        [⟨1, "2024-01-15", "M001", "B001", 2, 0, 1200⟩] 2).sales) :=
  C5_update_sale_frame demoDB (.num 1) 0
    (DB.mk demoDB.members demoDB.books
      [⟨1, "2024-01-15", "M001", "B001", 2, 0, 1200⟩] 2) 1 1200 (by decide)

/-- C7: every operation preserves non-negative stock.  A `sales_record` pass
only sells when `qty ≤ stock` (and `bid` is a primary key, so the decrement
hits the checked row); update and delete never write the `book` table;
`init_db` only adds the seed books, whose stocks are 50, 30, 20.  The report
takes the state read-only by construction. -/
theorem C7_stock_nonneg_invariant :
    (∀ db sdate m b qty d, UniqueBids db → stocksNonneg db →
        stocksNonneg (sales_record db sdate m b qty d).1) ∧
    (∀ db c d, stocksNonneg db → stocksNonneg (update_sales_record db c d).1) ∧
    (∀ db c, stocksNonneg db → stocksNonneg (delete_sales_record db c).1) ∧
    (∀ s, storeStocksNonneg s → storeStocksNonneg (init_db s)) := by
  refine ⟨?_, ?_, ?_, ?_⟩
  · intro db sdate m b qty d hu hnn
    rcases hrun : sales_record db sdate m b qty d with ⟨db', out⟩
    cases out with
    | err e =>
      show stocksNonneg db'
      rw [create_err_frame db sdate m b qty d db' e hrun]
      exact hnn
    | ok t =>
      obtain ⟨hdate, hm, book, hb, hq, hd, hs, ht, hdb⟩ :=
        create_inv db sdate m b qty d db' t hrun
      show stocksNonneg db'
      rw [hdb]
      intro bk hbk
      have hbk2 : bk ∈ decStock db.books b qty := hbk
      unfold decStock at hbk2
      obtain ⟨x, hx, hfx⟩ := List.mem_map.mp hbk2
      have hbfind : db.books.find? (fun y => y.bid == b) = some book := hb
      by_cases hxb : (x.bid == b) = true
      · have hbmem : book ∈ db.books := List.mem_of_find?_eq_some hbfind
        have hbp := List.find?_some hbfind
        have hxbook : x = book :=
          List.inj_on_of_nodup_map hu hx hbmem
            (by rw [beq_iff_eq.mp hxb, beq_iff_eq.mp hbp])
        subst hxbook
        rw [← hfx]
        simp only [hxb, if_pos]
        show 0 ≤ x.bstock - qty
        omega
      · rw [← hfx]
        simp only [hxb, Bool.false_eq_true, if_neg]
        exact hnn x hx
  · intro db c d hnn bk hbk
    rw [(update_other_tables db c d).1] at hbk
    exact hnn bk hbk
  · intro db c hnn bk hbk
    rw [(delete_other_tables db c).1] at hbk
    exact hnn bk hbk
  · intro s hsn
    simp only [init_db]
    split
    · exact hsn
    · intro bt hbt bk hbk
      dsimp only at hbt
      simp only [Option.some.injEq] at hbt
      rw [← hbt] at hbk
      rcases List.mem_append.mp hbk with hl | hr
      · cases hbt0 : s.bookTab with
        | none => rw [hbt0] at hl; simp at hl
        | some bt0 =>
          rw [hbt0] at hl
          exact hsn bt0 hbt0 bk (by simpa using hl)
      · simp only [seedBooks, List.mem_cons, List.not_mem_nil, or_false] at hr
        rcases hr with rfl | rfl | rfl <;> decide

/-- C7 witness: the demo sale of 5 copies keeps every stock non-negative. -/
theorem C7_stock_nonneg_invariant_witness :
    stocksNonneg (sales_record demoDB "2024-02-01" "M001" "B001" 5 50).1 :=
  C7_stock_nonneg_invariant.1 demoDB "2024-02-01" "M001" "B001" 5 50
    (by unfold UniqueBids; decide) (by unfold stocksNonneg; decide)

/-- C8: `init_db` is idempotent — after a completed first run (which leaves
exactly the seed rows: 3 members, 3 books, 4 sales) a second run changes
nothing, so exactly one copy of each seed row exists. -/
theorem C8_bootstrap_idempotent :
    init_db (init_db emptyStore) = init_db emptyStore ∧
    (init_db emptyStore).memberTab = some seedMembers ∧
    (init_db emptyStore).bookTab = some seedBooks ∧
    (init_db emptyStore).saleTab = some (seedSales 1) ∧
    seedMembers.length = 3 ∧ seedBooks.length = 3 ∧ (seedSales 1).length = 4 :=
  ⟨rfl, rfl, rfl, rfl, rfl, rfl, rfl⟩

/-- C9: the report query and the update/delete selection listing come back
ordered by ascending sale id, and an empty `sale` table makes the report and
both selection flows return the "no records" notice instead of an error. -/
theorem C9_listing_order_and_empty (db : DB) :
    List.Sorted rowLe (listSales db) ∧
    List.Sorted listingLe (salesListing db) ∧
    (db.sales = [] →
      show_sales_report db = .noRecords ∧
      (∀ c d, update_sales_record db c d = (db, .noRecords)) ∧
      (∀ c, delete_sales_record db c = (db, .noRecords))) := by
  refine ⟨List.sorted_insertionSort rowLe _,
    List.sorted_insertionSort listingLe _, ?_⟩
  intro he
  have h1 : listSales db = [] := by simp [listSales, he]
  have h2 : salesListing db = [] := by simp [salesListing, he]
  refine ⟨?_, ?_, ?_⟩
  · simp [show_sales_report, h1]
  · intro c d
    simp [update_sales_record, h2]
  · intro c
    simp [delete_sales_record, h2]

/-- C9 witness: on the empty database the report and both selection flows
return the notice. -/
theorem C9_listing_order_and_empty_witness :
    show_sales_report emptyDB = .noRecords ∧
    update_sales_record emptyDB .emptyInput 0 = (emptyDB, .noRecords) ∧
    delete_sales_record emptyDB .emptyInput = (emptyDB, .noRecords) :=
  ⟨((C9_listing_order_and_empty emptyDB).2.2 rfl).1,
   ((C9_listing_order_and_empty emptyDB).2.2 rfl).2.1 .emptyInput 0,
   ((C9_listing_order_and_empty emptyDB).2.2 rfl).2.2 .emptyInput⟩

/-- C10: pressing Enter (the empty string) at the update or delete selection
prompt cancels the operation before any write: the whole database is exactly
as before, and when the listing is non-empty the outcome is `cancelled`. -/
theorem C10_empty_input_cancels (db : DB) (d : Int) :
    (update_sales_record db .emptyInput d).1 = db ∧
    (delete_sales_record db .emptyInput).1 = db ∧
    ((salesListing db).isEmpty = false →
      update_sales_record db .emptyInput d = (db, .cancelled) ∧
      delete_sales_record db .emptyInput = (db, .cancelled)) := by
  refine ⟨?_, ?_, ?_⟩
  · by_cases hemp : (salesListing db).isEmpty = true <;>
      simp [update_sales_record, hemp]
  · by_cases hemp : (salesListing db).isEmpty = true <;>
      simp [delete_sales_record, hemp]
  · intro hne
    constructor <;> simp [update_sales_record, delete_sales_record, hne]

/-- C10 witness: on the demo database Enter cancels both flows and the
state is returned unchanged. -/
theorem C10_empty_input_cancels_witness :
    update_sales_record demoDB .emptyInput 0 = (demoDB, .cancelled) ∧
    delete_sales_record demoDB .emptyInput = (demoDB, .cancelled) :=
  (C10_empty_input_cancels demoDB 0).2.2 (by decide)
